import Mathlib

/-!
# Verification of the Work-Order-Checker aggregation pipeline

Shallow embedding of `src/streamlit_app.py` (a Streamlit app that ingests a
spreadsheet of work-order time entries, aggregates hours per
(craft, name, order number) for a selected production date, and renders a
PDF report).

Modelling conventions:
* A spreadsheet cell (a dynamically typed Python value) is a `CellValue`:
  `None`, a float `NaN`, a string, an int, a (non-NaN) float, or a
  datetime/date.  Python `int` and `float` are embedded as `ℤ` and `ℚ`
  (floats of interest in the claims are exactly representable; float
  rounding is abstracted by exact rational arithmetic).
* A possibly-NaN float (the running `SumOfHours` accumulator) is
  `PFloat := Option ℚ`, `none` standing for NaN (NaN is absorbing for `+`).
* Python exceptions that the source does not catch are modelled by
  `Option`-valued functions (`none` = the operation raises); exceptions the
  source catches (`try`/`except`) are resolved inside the definitions just
  as the source resolves them.
* `str.isdigit` is modelled on ASCII digits, `str.strip` on ASCII
  whitespace; Unicode-category subtleties are out of scope.
* External library calls (`pd.to_datetime`, reportlab) are modelled by
  named functions whose doc comments state the modelled behaviour.
-/

/-- A dynamically typed spreadsheet cell value, as seen by the Python code:
`None`, float NaN, `str`, `int`, non-NaN `float` (as an exact rational), or
`datetime`/`date` (time-of-day is irrelevant to the program, which only ever
formats the date part, so only year/month/day are carried). -/
inductive CellValue where
  | vNone : CellValue
  | vNaN : CellValue
  | vStr : String → CellValue
  | vInt : ℤ → CellValue
  | vFloat : ℚ → CellValue
  | vDate : ℕ → ℕ → ℕ → CellValue
deriving Repr, DecidableEq

open CellValue

/-- A Python float that may be NaN: `none` is NaN. -/
abbrev PFloat := Option ℚ

/-- Python `==` on cell values: numbers compare across `int`/`float`;
distinct constructors otherwise compare unequal.  `vNaN == vNaN` is `true`,
modelling CPython's identity shortcut when one and the same NaN object is
used as a dict key (the program only ever compares keys coming from the
same row objects). -/
def pyEqB : CellValue → CellValue → Bool
  | vNone, vNone => true
  | vNaN, vNaN => true
  | vStr a, vStr b => decide (a = b)
  | vInt a, vInt b => decide (a = b)
  | vInt a, vFloat b => decide ((a : ℚ) = b)
  | vFloat a, vInt b => decide (a = (b : ℚ))
  | vFloat a, vFloat b => decide (a = b)
  | vDate y m d, vDate y2 m2 d2 => decide (y = y2 ∧ m = m2 ∧ d = d2)
  | _, _ => false

/-- ASCII-whitespace strip of both ends, modelling Python `str.strip()`. -/
def pyStrip (s : String) : String :=
  ⟨((s.data.dropWhile Char.isWhitespace).reverse.dropWhile Char.isWhitespace).reverse⟩

/-- Numeric value of a list of ASCII digits (most significant first). -/
def natVal (cs : List Char) : ℕ :=
  cs.foldl (fun a c => a * 10 + (c.toNat - 48)) 0

/-- Parse an unsigned Python float literal restricted to the alphabet
`0-9` and `.` (what survives the filters in the source): digit strings,
`d+.d*` and `d*.d+` forms; anything else (empty, stray characters, a second
dot) fails, as Python `float()` does. -/
def parseUnsignedChars (cs : List Char) : Option ℚ :=
  match cs.dropWhile (fun c => c ≠ '.'), cs.takeWhile (fun c => c ≠ '.') with
  | [], ip =>
    if ip ≠ [] ∧ ip.all Char.isDigit then some (natVal ip) else none
  | _ :: fp, ip =>
    if ip.all Char.isDigit ∧ fp.all Char.isDigit ∧ (ip ≠ [] ∨ fp ≠ []) then
      some ((natVal ip : ℚ) + (natVal fp : ℚ) / (10 ^ fp.length))
    else none

/-- Python `float()` on a string drawn from the alphabet `0-9`, `.`, `-`
(the only characters the source lets through): an optional leading minus
followed by an unsigned literal.  `none` models `ValueError`. -/
def parseFloatChars (cs : List Char) : Option ℚ :=
  match cs with
  | '-' :: rest => (parseUnsignedChars rest).map (fun q => -q)
  | _ => parseUnsignedChars cs

/-- Characters `numberish` keeps: digits, the decimal point, the minus sign
(source: `ch.isdigit() or ch in ".-"`). -/
def keepNumChar (c : Char) : Bool :=
  c.isDigit || c = '.' || c = '-'

/-- `numberish(v)` (source lines 65-73): ints and floats pass through
(NaN stays NaN), strings are stripped to digits/`.`/`-` and parsed with
`float()` (parse failure caught, giving `0.0`), anything else is `0.0`. -/
def numberish : CellValue → PFloat
  | vInt n => some (n : ℚ)
  | vFloat q => some q
  | vNaN => none
  | vStr s => some ((parseFloatChars (s.data.filter keepNumChar)).getD 0)
  | _ => some 0

/-- NaN-absorbing addition of Python floats (`g["SumOfHours"] += ...`). -/
def addP : PFloat → PFloat → PFloat
  | some a, some b => some (a + b)
  | _, _ => none

/-- Round half to even (Python's `round` on floats; exact-rational model of
banker's rounding to an integer). -/
def bankerRound (x : ℚ) : ℤ :=
  let n := ⌊x⌋
  let r := x - n
  if r < 1/2 then n
  else if r > 1/2 then n + 1
  else if n % 2 = 0 then n else n + 1

/-- Python `round(x, 2)` on a non-NaN float, modelled exactly. -/
def round2 (q : ℚ) : ℚ := (bankerRound (q * 100) : ℚ) / 100

/-- Python `round(x, 2)`; NaN rounds to NaN. -/
def round2P : PFloat → PFloat
  | none => none
  | some q => some (round2 q)

/-- Left-pad a numeral string with zeros to width `k`. -/
def padZeros (k : ℕ) (s : String) : String :=
  ⟨List.replicate (k - s.length) '0'⟩ ++ s

/-- Two-digit zero-padded numeral (`%m`, `%d`). -/
def pad2 (n : ℕ) : String := padZeros 2 (toString n)

/-- Four-digit zero-padded numeral (`%Y`). -/
def pad4 (n : ℕ) : String := padZeros 4 (toString n)

/-- Python `str()` of a non-NaN float.  Finite-decimal rationals (which
include every float reachable in the claims) are printed exactly with at
least one fractional digit, matching CPython for short decimals
(`str(10.0) = "10.0"`, `str(3.5) = "3.5"`).  CPython's shortest-roundtrip
abbreviation and scientific notation for huge/tiny floats are not modelled;
for a non-decimal rational the `ℚ` printing is used as a placeholder. -/
def pyStrFloat (q : ℚ) : String :=
  match (List.range 1100).find? (fun k => q.den ∣ 10 ^ k) with
  | some k =>
    let n := q.num.natAbs * (10 ^ k / q.den)
    let ipart := n / 10 ^ k
    let fpart := n % 10 ^ k
    let fs := if k = 0 then "0" else padZeros k (toString fpart)
    (if q.num < 0 then "-" else "") ++ toString ipart ++ "." ++ fs
  | none => toString q

/-- Python `str()` of a cell value (`str(None) = "None"`,
`str(float("nan")) = "nan"`, `str(datetime(y,m,d)) = "y-m-d 00:00:00"`). -/
def pyStr : CellValue → String
  | vNone => "None"
  | vNaN => "nan"
  | vStr s => s
  | vInt n => toString n
  | vFloat q => pyStrFloat q
  | vDate y m d => pad4 y ++ "-" ++ pad2 m ++ "-" ++ pad2 d ++ " 00:00:00"

/-- Civil calendar date (year, month, day) from a count of days since
1970-01-01 (proleptic Gregorian; Howard Hinnant's `civil_from_days`). -/
def civilFromDays (z0 : ℤ) : ℤ × ℕ × ℕ :=
  let z := z0 + 719468
  let era := Int.fdiv z 146097
  let doe := (z - era * 146097).toNat
  let yoe := (doe - doe / 1460 + doe / 36524 - doe / 146096) / 365
  let y := (yoe : ℤ) + era * 400
  let doy := doe - (365 * yoe + yoe / 4 - yoe / 100)
  let mp := (5 * doy + 2) / 153
  let d := doy - (153 * mp + 2) / 5 + 1
  let m := if mp < 10 then mp + 3 else mp - 9
  (if m ≤ 2 then y + 1 else y, m, d)

/-- `strftime("%m/%d/%Y")` of a civil date. -/
def fmtDate (ymd : ℤ × ℕ × ℕ) : String :=
  pad2 ymd.2.1 ++ "/" ++ pad2 ymd.2.2 ++ "/" ++ pad4 ymd.1.toNat

/-- Does a nanosecond count fit in a signed 64-bit `Timestamp`?  (pandas
raises `OutOfBoundsDatetime` outside this range.) -/
def inInt64 (ns : ℚ) : Bool :=
  decide ((-(2 ^ 63) : ℚ) ≤ ns) && decide (ns ≤ (2 ^ 63 : ℚ) - 1)

/-- Modelled external call `pd.to_datetime(v, unit="D", origin="1899-12-30")`
(source line 48): pandas shifts the value by the origin's day offset
(1899-12-30 is day -25569 of the Unix epoch) and converts day counts to a
nanosecond timestamp, raising when the result leaves the `int64` range.
Returns the civil date of the timestamp (the time-of-day of a fractional
day count is discarded by the subsequent `strftime`). -/
def toDatetimeDay (q : ℚ) : Option (ℤ × ℕ × ℕ) :=
  if inInt64 ((q - 25569) * 86400000000000) then some (civilFromDays ⌊q - 25569⌋)
  else none

/-- Modelled external call `pd.to_datetime(v, unit="ms", origin="unix")`
(source line 53): millisecond count since the Unix epoch, raising outside
the `int64` nanosecond range.  Returns the civil date of the timestamp. -/
def toDatetimeMs (q : ℚ) : Option (ℤ × ℕ × ℕ) :=
  if inInt64 (q * 1000000) then some (civilFromDays ⌊q / 86400000⌋) else none

/-- Modelled external call `pd.to_datetime(str(v), errors="coerce")`
(source line 58): free-form text parsing, restricted here to the canonical
`MM/DD/YYYY` layout (digits in the right positions, month 1-12,
day 1-31); everything else coerces to `NaT`, i.e. `none`.  The real pandas
parser accepts more layouts; none of the claims depends on them. -/
def pdParseText (s : String) : Option (ℤ × ℕ × ℕ) :=
  match s.data with
  | [m1, m2, '/', d1, d2, '/', y1, y2, y3, y4] =>
    if [m1, m2, d1, d2, y1, y2, y3, y4].all Char.isDigit then
      let m := natVal [m1, m2]
      let d := natVal [d1, d2]
      let y := natVal [y1, y2, y3, y4]
      if 1 ≤ m ∧ m ≤ 12 ∧ 1 ≤ d ∧ d ≤ 31 then some ((y : ℤ), m, d) else none
    else none
  | _ => none

/-- The numeric branch of `normalize_excel_date` (source lines 46-62 for an
`int`/`float` input `q` whose `str()` is `sv`): try the Excel day-count
interpretation, on failure the millisecond interpretation, on failure fall
through to free-form text parsing of `str(v)`. -/
def numericNorm (q : ℚ) (sv : String) : Option String :=
  match toDatetimeDay q with
  | some ymd => some (fmtDate ymd)
  | none =>
    match toDatetimeMs q with
    | some ymd => some (fmtDate ymd)
    | none => (pdParseText sv).map fmtDate

/-- `normalize_excel_date(v)` (source lines 41-63): `None`/NaN/empty string
give `None`; datetimes are reformatted; numbers go through the day-count →
millisecond → text chain; any other value is parsed as free-form text. -/
def normalize_excel_date : CellValue → Option String
  | vNone => none
  | vNaN => none
  | vStr s => if s = "" then none else (pdParseText s).map fmtDate
  | vDate y m d => some (fmtDate ((y : ℤ), m, d))
  | vInt n => numericNorm (n : ℚ) (toString n)
  | vFloat q => numericNorm q (pyStrFloat q)

/-! ## DataFrames -/

/-- One row of a DataFrame: an association list from column labels to cell
values.  (A pandas row always carries every column of its frame; a label
absent from the association list stands for a NaN-filled cell.) -/
abbrev DRow := List (String × CellValue)

/-- A DataFrame: the column labels and the rows, in order. -/
structure Frame where
  cols : List String
  rows : List DRow
deriving Repr, DecidableEq

/-- The raw cell stored in a row under a label (`none` when the
association list has no entry, which stands for NaN). -/
def lookupCell (r : DRow) (c : String) : Option CellValue :=
  (r.find? (fun p => p.1 == c)).map (fun p => p.2)

/-- Row access `r[c]` on a row of a frame with columns `cols`: a `KeyError`
(`none`) when the label is not a column, otherwise the cell (NaN-filled
when missing from the association list). -/
def rowGet (cols : List String) (r : DRow) (c : String) : Option CellValue :=
  if c ∈ cols then some ((lookupCell r c).getD vNaN) else none

/-- Row access `r.get(c, d)` with a default: the default when the label is
not a column, otherwise the cell. -/
def rowGetD (cols : List String) (r : DRow) (c : String) (d : CellValue) : CellValue :=
  if c ∈ cols then (lookupCell r c).getD vNaN else d

/-- Store a value under a label in a row (column assignment, row-wise):
replace the entry when the label exists, append it otherwise. -/
def setCell : DRow → String → CellValue → DRow
  | [], c, v => [(c, v)]
  | p :: rest, c, v =>
    if p.1 == c then (p.1, v) :: rest else p :: setCell rest c v

/-- Add a column label (assignment to a fresh column appends it; assignment
to an existing one keeps the label list unchanged). -/
def addCol (cols : List String) (c : String) : List String :=
  if c ∈ cols then cols else cols ++ [c]

/-- The hard-coded craft-code table (source lines 15-34). -/
def CRAFT_MAP : List (String × String) :=
  [("1145480", "Alloy Mech Days"),
   ("1145560", "AOD Elec Days"),
   ("1146669", "AOD Elec Days"),
   ("1145463", "AOD Mech Days"),
   ("1145498", "Baghouse Mech Days"),
   ("1145594", "Caster Elec Days"),
   ("1145501", "Caster Mech Days"),
   ("1145551", "EAF Elec Days"),
   ("1145674", "Turns"),
   ("1145455", "EAF Mech Days"),
   ("1145631", "HVAC Elec Days"),
   ("1145623", "Preheater Elec Days"),
   ("1157755", "Segment Shop"),
   ("1145658", "Turns"),
   ("1145666", "Turns"),
   ("1146757", "Utilities Mech Days"),
   ("1162511", "Utilities Mech Days"),
   ("1152989", "WTP Mech Days")]

/-- The required column labels (source lines 36-39). -/
def EXPECTED_COLS : List String :=
  ["AddressBookNumber", "Name", "Production Date", "OrderNumber", "Sum of Hours.",
   "Hours Estimated", "Status", "Type", "PMFrequency", "Description", "Problem",
   "Lead Area", "Craft", "CostCenter", "UnitNumber", "StructureTag"]

/-- `df["Craft"].astype(str).str.strip().map(CRAFT_MAP).fillna("(Unmapped Craft)")`
applied to one cell (source line 79). -/
def craftDescOf (v : CellValue) : String :=
  (CRAFT_MAP.lookup (pyStrip (pyStr v))).getD "(Unmapped Craft)"

/-- The cell `normalize_excel_date` puts into the helper column for one
row: the canonical date string, or the `None` object. -/
def prodDateCell (r : DRow) : CellValue :=
  match normalize_excel_date ((lookupCell r "Production Date").getD vNaN) with
  | some s => vStr s
  | none => vNone

/-- `df["__ProdDate"] = df["Production Date"].apply(normalize_excel_date)`
(source line 77): `KeyError` when the column is absent; the new column
holds the canonical date string or `None`. -/
def addProdDate (f : Frame) : Option Frame :=
  if "Production Date" ∈ f.cols then
    some { cols := addCol f.cols "__ProdDate",
           rows := f.rows.map (fun r => setCell r "__ProdDate" (prodDateCell r)) }
  else none

/-- `df = df[df["__ProdDate"] == selected_date]` (source line 78): keep the
rows whose normalized date cell equals the selected date (Python `==`
between a non-string cell, e.g. `None`, and a string is `False`). -/
def filterDate (f : Frame) (sel : String) : Frame :=
  { cols := f.cols,
    rows := f.rows.filter (fun r => pyEqB ((lookupCell r "__ProdDate").getD vNaN) (vStr sel)) }

/-- `df["__CraftDesc"] = ...` (source line 79): `KeyError` when `"Craft"`
is absent; otherwise label every row with its craft description. -/
def addCraftDesc (f : Frame) : Option Frame :=
  if "Craft" ∈ f.cols then
    some { cols := addCol f.cols "__CraftDesc",
           rows := f.rows.map (fun r =>
             setCell r "__CraftDesc" (vStr (craftDescOf ((lookupCell r "Craft").getD vNaN)))) }
  else none

/-! ## Grouping -/

/-- A grouping key `(craft description, Name, OrderNumber)` (source
line 84).  All three components are row values; Python tuple equality is
`pyEqB` componentwise. -/
abbrev GKey := CellValue × CellValue × CellValue

/-- Python `==` on grouping keys. -/
def keyEqB (a b : GKey) : Bool :=
  pyEqB a.1 b.1 && pyEqB a.2.1 b.2.1 && pyEqB a.2.2 b.2.2

/-- The mutable accumulator for one group (source lines 86-94). -/
structure Bucket where
  craft : CellValue
  name : CellValue
  wo : CellValue
  hours : PFloat
  typ : List String
  descr : List String
  prob : List String
deriving Repr, DecidableEq

/-- A fresh bucket for a key (source lines 86-94: the stored `Craft`,
`Name`, `OrderNumber` are the very values forming the key). -/
def freshBucket (k : GKey) : Bucket :=
  { craft := k.1, name := k.2.1, wo := k.2.2, hours := some 0,
    typ := [], descr := [], prob := [] }

/-- Insert into a Python `set` of strings (modelled as a duplicate-free
list; the order is irrelevant because the output is sorted). -/
def insertSet (l : List String) (s : String) : List String :=
  if s ∈ l then l else l ++ [s]

/-- `if isinstance(cell, str) and cell.strip(): bucket.add(cell.strip())`
(source lines 97-102). -/
def addTrimmed (l : List String) (c : CellValue) : List String :=
  match c with
  | vStr s => if pyStrip s ≠ "" then insertSet l (pyStrip s) else l
  | _ => l

/-- One record's contribution to its bucket (source lines 95-102). -/
def contribute (b : Bucket) (h t d p : CellValue) : Bucket :=
  { b with
    hours := addP b.hours (numberish h),
    typ := addTrimmed b.typ t,
    descr := addTrimmed b.descr d,
    prob := addTrimmed b.prob p }

/-- Process one record against the insertion-ordered group dictionary
(source lines 85-102): update the first entry whose key compares equal,
or append a fresh bucket at the end. -/
def stepGroups (gs : List (GKey × Bucket)) (k : GKey) (h t d p : CellValue) :
    List (GKey × Bucket) :=
  match gs with
  | [] => [(k, contribute (freshBucket k) h t d p)]
  | (k2, b) :: rest =>
    if keyEqB k k2 then (k2, contribute b h t d p) :: rest
    else (k2, b) :: stepGroups rest k h t d p

/-- The grouping loop (source lines 81-102), reading each row's craft
description, name, order number and the optional fields; `none` models a
`KeyError` on a row access. -/
def runRowsAux (cols : List String) : List DRow → List (GKey × Bucket) →
    Option (List (GKey × Bucket))
  | [], gs => some gs
  | r :: rest, gs =>
    match rowGet cols r "__CraftDesc", rowGet cols r "Name", rowGet cols r "OrderNumber" with
    | some ck, some nm, some wo =>
      runRowsAux cols rest
        (stepGroups gs (ck, nm, wo)
          (rowGetD cols r "Sum of Hours." (vInt 0))
          (rowGetD cols r "Type" (vStr ""))
          (rowGetD cols r "Description" (vStr ""))
          (rowGetD cols r "Problem" (vStr "")))
    | _, _, _ => none

/-! ## Output rows, craft partition and sort -/

/-- One output row of the report (source lines 106-113). -/
structure ORow where
  name : CellValue
  wo : CellValue
  hours : PFloat
  typ : String
  descr : String
  prob : String
deriving Repr, DecidableEq

/-- Lexicographic `≤` on strings by code points (Python string order). -/
def lexLeChars : List Char → List Char → Bool
  | [], _ => true
  | _ :: _, [] => false
  | a :: as, b :: bs =>
    if a.toNat < b.toNat then true
    else if b.toNat < a.toNat then false
    else lexLeChars as bs

/-- Python `≤` on strings. -/
def strLeB (a b : String) : Bool := lexLeChars a.data b.data

/-- Python `≤` on strings, as a relation. -/
def strLe (a b : String) : Prop := strLeB a b = true

instance : DecidableRel strLe := fun a b => instDecidableEqBool (strLeB a b) true

/-- `"; ".join(sorted(s))` (source lines 110-112). -/
def joinSorted (l : List String) : String :=
  match l.insertionSort strLe with
  | [] => ""
  | x :: xs => xs.foldl (fun acc s => acc ++ "; " ++ s) x

/-- Convert a finished bucket to its output row (source lines 106-113):
hours rounded to 2 decimal places, the three sets rendered sorted and
semicolon-joined. -/
def mkORow (b : Bucket) : ORow :=
  { name := b.name, wo := b.wo, hours := round2P b.hours,
    typ := joinSorted b.typ, descr := joinSorted b.descr, prob := joinSorted b.prob }

/-- The report structure: craft description → ordered output rows
(the `crafts` dictionary of source lines 104-120, in insertion order). -/
abbrev ReportModel := List (CellValue × List ORow)

/-- `crafts.setdefault(craft, []).append(row)` (source line 106). -/
def addToCraft (m : ReportModel) (c : CellValue) (row : ORow) : ReportModel :=
  match m with
  | [] => [(c, [row])]
  | (c2, rs) :: rest =>
    if pyEqB c2 c then (c2, rs ++ [row]) :: rest
    else (c2, rs) :: addToCraft rest c row

/-- Distribute the buckets into the craft dictionary (source
lines 104-113), in group insertion order. -/
def partitionCrafts (gs : List (GKey × Bucket)) : ReportModel :=
  gs.foldl (fun m kb => addToCraft m kb.2.craft (mkORow kb.2)) []

/-- `wo_key` (source lines 116-118): `float(s)` when
`str(x.get("Work Order #",""))` is a pure digit string, else `float("inf")`
— modelled as `some n` vs `none` (infinity).  A digit string always parses
(`float` of a decimal digit string succeeds), so no exception escapes. -/
def woKeyR (x : ORow) : Option ℕ :=
  let s := pyStr x.wo
  if s.data ≠ [] ∧ s.data.all Char.isDigit then some (natVal s.data) else none

/-- `≤` on `wo_key` values: numbers ascending, infinity after every
number. -/
def leKeyB : Option ℕ → Option ℕ → Bool
  | _, none => true
  | none, some _ => false
  | some m, some n => m ≤ n

/-- The sort relation on output rows used by `crafts[k].sort(key=wo_key)`
(source line 119). -/
def rowLe (a b : ORow) : Prop := leKeyB (woKeyR a) (woKeyR b) = true

instance : DecidableRel rowLe := fun a b =>
  instDecidableEqBool (leKeyB (woKeyR a) (woKeyR b)) true

instance : IsTotal ORow rowLe where
  total a b := by
    unfold rowLe
    cases ha : woKeyR a <;> cases hb : woKeyR b <;> simp [leKeyB]
    exact Nat.le_total _ _

instance : IsTrans ORow rowLe where
  trans a b c := by
    unfold rowLe
    cases woKeyR a <;> cases woKeyR b <;> cases woKeyR c <;> simp [leKeyB]
    exact Nat.le_trans

/-- `crafts[k].sort(key=wo_key)` for every craft (source lines 115-119);
Python's `list.sort` is a stable sort, modelled by insertion sort. -/
def sortCrafts (m : ReportModel) : ReportModel :=
  m.map (fun p => (p.1, p.2.insertionSort rowLe))

/-- `build_report(df, selected_date)` (source lines 75-120).  `none` models
an uncaught exception (a `KeyError` on a missing column). -/
def build_report (f : Frame) (sel : String) : Option ReportModel :=
  match addProdDate f with
  | none => none
  | some f1 =>
    match addCraftDesc (filterDate f1 sel) with
    | none => none
    | some f3 =>
      match runRowsAux f3.cols f3.rows [] with
      | none => none
      | some gs => some (sortCrafts (partitionCrafts gs))

/-- The group dictionary `build_report` builds internally (source
lines 81-102): the same pipeline as `build_report`, stopped after the
grouping loop. -/
def groupsOf (f : Frame) (sel : String) : Option (List (GKey × Bucket)) :=
  match addProdDate f with
  | none => none
  | some f1 =>
    match addCraftDesc (filterDate f1 sel) with
    | none => none
    | some f3 => runRowsAux f3.cols f3.rows []

/-! ## A store model of `build_report`

Python's `df.copy()` on source line 76 is what keeps the caller's frame
unmutated: column assignments (`df["__ProdDate"] = ...`) mutate an object
in place, while `df = df[...]` rebinds the local name to a new object.  To
state this, frames live in a store (a heap of frame objects); the caller's
frame is a store index, `df.copy()` allocates, and in-place column
assignments overwrite the allocated slots only. -/

/-- `build_report` acting on a store of frame objects: the argument is the
index of the caller's frame.  Returns the store after the call together
with the result (`none` = the call raised).  The copy made on line 76 is
appended to the store; line 77 mutates the copy (slot becomes `f1`),
line 78 rebinds `df` to a fresh filtered object, line 79 mutates that
object (slot becomes `f3`). -/
def buildReportStore (σ : List Frame) (i : ℕ) (sel : String) :
    List Frame × Option ReportModel :=
  match σ.get? i with
  | none => (σ, none)
  | some f =>
    match addProdDate f with
    | none => (σ ++ [f], none)
    | some f1 =>
      match addCraftDesc (filterDate f1 sel) with
      | none => (σ ++ [f1, filterDate f1 sel], none)
      | some f3 =>
        match runRowsAux f3.cols f3.rows [] with
        | none => (σ ++ [f1, f3], none)
        | some gs => (σ ++ [f1, f3], some (sortCrafts (partitionCrafts gs)))

/-! ## The interactive shell (module level, source lines 182-207) -/

/-- What the module-level code does once a spreadsheet has been read into a
frame (source lines 186-207), before any rendering. -/
structure ShellOut where
  missing : List String
  errorShown : Bool
  datesList : List String
  selected : String
  invoked : Bool
  result : Option (Option ReportModel)
deriving Repr, DecidableEq

/-- The sorted set of normalized production dates (source line 194). -/
def detectedDates (f : Frame) : List String :=
  ((f.rows.filterMap (fun r =>
      normalize_excel_date ((lookupCell r "Production Date").getD vNaN))).dedup).insertionSort strLe

/-- The module-level flow for an uploaded dataset (source lines 186-207):
strip the column labels, check for missing expected columns (showing an
error when some are missing, computing the date list otherwise), take the
selected date from the text input (the user's entry, defaulting to the
latest detected date), and, whenever the frame exists and the selected
date is non-empty, call `build_report`.  `result = some none` means
`build_report` was invoked and raised. -/
def appRun (raw : Frame) (userText : Option String) : ShellOut :=
  let f : Frame := { cols := raw.cols.map pyStrip,
                     rows := raw.rows.map (fun r => r.map (fun p => (pyStrip p.1, p.2))) }
  let missing := EXPECTED_COLS.filter (fun c => decide (c ∉ f.cols))
  let datesList := if missing = [] then detectedDates f else []
  let selected := (userText.getD ((datesList.getLast?).getD ""))
  { missing := missing,
    errorShown := !missing.isEmpty,
    datesList := datesList,
    selected := selected,
    invoked := selected ≠ "",
    result := if selected ≠ "" then some (build_report f selected) else none }

/-! ## The PDF renderer (source lines 122-166) -/

/-- One craft section of the rendered document: the heading paragraph and
the table cells (header row first). -/
structure PdfSection where
  heading : String
  table : List (List String)
deriving Repr, DecidableEq

/-- The rendered document: title, subtitle, sections in craft order. -/
structure PdfDoc where
  title : String
  subtitle : String
  sections : List PdfSection
deriving Repr, DecidableEq

/-- The text placed in every Sum of Hours cell by source line 152.  The
f-string doubles its braces — `f'{{...}}'` — so the braces are escapes and
the cell is this constant literal text, not a formatted number. -/
def sumHoursCellText : String := "\x7br.get(\"Sum of Hours\",0):.2f\x7d"

/-- The header row of every craft table (source line 147). -/
def pdfHeaderRow : List String :=
  ["Name", "Work Order #", "Sum of Hours", "Type", "Description", "Problem"]

/-- One data row of a craft table (source lines 149-156). -/
def pdfDataRow (r : ORow) : List String :=
  [pyStr r.name, pyStr r.wo, sumHoursCellText, r.typ, r.descr, r.prob]

/-- `make_pdf(selected_date, crafts)` (source lines 122-166), modelled as
the document structure handed to the layout engine: title and subtitle
paragraphs, then one section per craft in dictionary order, each a heading
plus a table of the header row and one row per report row. -/
def make_pdf (sel : String) (crafts : ReportModel) : PdfDoc :=
  { title := "Daily Report — " ++ sel,
    subtitle := "Sorted by Work Order # within each craft",
    sections := crafts.map (fun p =>
      { heading := pyStr p.1,
        table := pdfHeaderRow :: p.2.map pdfDataRow }) }

/-- The 2-decimal fixed-point rendering of a float, `f"{x:.2f}"`.
Modelled from the spec: "Sum of Hours is formatted to exactly 2 decimal
places" — this is the formatting the specification prescribes for the Sum
of Hours cell, for comparison with what the code emits. -/
def specFormat2dp : PFloat → String
  | none => "nan"
  | some q =>
    let n := bankerRound (q * 100)
    (if n < 0 then "-" else "") ++ toString (n.natAbs / 100) ++ "." ++ pad2 (n.natAbs % 100)

/-! ## Concrete test fixtures (drawn from the spec's testable properties) -/

/-- Two records, craft `1145480`, name `A`, order number `10`, production
date = Excel serial 45000, hours `"3.5h"` and `2`. -/
def c1Frame : Frame :=
  { cols := EXPECTED_COLS,
    rows := [
      [("Craft", vStr "1145480"), ("Name", vStr "A"), ("OrderNumber", vStr "10"),
       ("Production Date", vInt 45000), ("Sum of Hours.", vStr "3.5h")],
      [("Craft", vStr "1145480"), ("Name", vStr "A"), ("OrderNumber", vStr "10"),
       ("Production Date", vInt 45000), ("Sum of Hours.", vInt 2)]] }

/-- The single aggregate row the two `c1Frame` records merge into. -/
def c1Row : ORow :=
  { name := vStr "A", wo := vStr "10", hours := some 5.5, typ := "", descr := "", prob := "" }

/-- The report built from `c1Frame`. -/
def c1Model : ReportModel := [(vStr "Alloy Mech Days", [c1Row])]

/-- Four records differing only in order number (`"100"`, `"20"`, `"abc"`,
`"7"`), same craft, name and date. -/
def c2Frame : Frame :=
  { cols := EXPECTED_COLS,
    rows := ["100", "20", "abc", "7"].map (fun w =>
      [("Craft", vStr "1145480"), ("Name", vStr "A"), ("OrderNumber", vStr w),
       ("Production Date", vInt 45000), ("Sum of Hours.", vInt 1)]) }

/-- The aggregate row of a `c2Frame` record with order number `w`. -/
def c2Row (w : String) : ORow :=
  { name := vStr "A", wo := vStr w, hours := some 1, typ := "", descr := "", prob := "" }

/-- The report built from `c2Frame`: one craft, rows sorted `7`, `20`,
`100`, `abc`. -/
def c2Model : ReportModel :=
  [(vStr "Alloy Mech Days", [c2Row "7", c2Row "20", c2Row "100", c2Row "abc"])]

/-- The keys of the group dictionary are pairwise `==`-distinct. -/
def KeysDistinct (gs : List (GKey × Bucket)) : Prop :=
  (gs.map Prod.fst).Pairwise (fun a b => keyEqB a b = false)

/-- Every bucket stores exactly the components of its key. -/
def BucketsMatchKeys (gs : List (GKey × Bucket)) : Prop :=
  ∀ kb ∈ gs, kb.2.craft = kb.1.1 ∧ kb.2.name = kb.1.2.1 ∧ kb.2.wo = kb.1.2.2

/-- Every key's craft component is a string. -/
def KeysStrHeaded (gs : List (GKey × Bucket)) : Prop :=
  ∀ kb ∈ gs, ∃ s, kb.1.1 = vStr s

/-- The `(craft, Name, OrderNumber)` triples of the rows of a report. -/
def modelTriples : ReportModel → List GKey
  | [] => []
  | (c, rs) :: rest => rs.map (fun r => (c, r.name, r.wo)) ++ modelTriples rest

/-- Every partition key of a report is a string value. -/
def StrKeyed (m : ReportModel) : Prop := ∀ p ∈ m, ∃ s, p.1 = vStr s

/-- An uploaded dataset whose header lacks the `Craft` column. -/
def c5Frame : Frame :=
  { cols := EXPECTED_COLS.erase "Craft",
    rows := [[("Name", vStr "A"), ("Production Date", vInt 45000)]] }

/-- One record whose craft code `9999999` is not in the static table. -/
def c8Frame : Frame :=
  { cols := EXPECTED_COLS,
    rows := [
      [("Craft", vStr "9999999"), ("Name", vStr "B"), ("OrderNumber", vStr "77"),
       ("Production Date", vInt 45000), ("Sum of Hours.", vInt 2)]] }

/-- The group dictionary the `c1Frame` records produce. -/
def c1Groups : List (GKey × Bucket) :=
  [((vStr "Alloy Mech Days", vStr "A", vStr "10"),
    { craft := vStr "Alloy Mech Days", name := vStr "A", wo := vStr "10",
      hours := some 5.5, typ := [], descr := [], prob := [] })]

/-! ## C1 -/

unseal Rat.add Rat.sub Rat.mul Rat.inv Rat.ofScientific in
/-- C1: aggregating the two-record `c1Frame` (craft `1145480`, name `A`,
order `10`, serial date 45000, hours `"3.5h"` and `2`) at the serial's
canonical date `03/15/2023` yields exactly one aggregate row, under craft
description `Alloy Mech Days`, with Sum of Hours `5.5`. -/
theorem C1_two_records_one_row :
    build_report c1Frame "03/15/2023" = some c1Model ∧ c1Row.hours = some 5.5 := by
  decide

/-! ## C3 -/

unseal Rat.add Rat.sub Rat.mul Rat.inv Rat.ofScientific in
/-- C3: the claim fails on the code.  The Sum of Hours cell of every
rendered data row is the constant literal text of the unexpanded template
— the f-string on source line 152 doubles its braces, so no formatting
happens — and not the row's value formatted to two decimal places
(`"5.50"` for the 5.5-hour row). -/
theorem C3_sum_cell_is_template_literal :
    (make_pdf "03/15/2023" c1Model).sections =
      [{ heading := "Alloy Mech Days",
         table := [pdfHeaderRow, ["A", "10", sumHoursCellText, "", "", ""]] }]
  ∧ specFormat2dp c1Row.hours = "5.50"
  ∧ sumHoursCellText ≠ specFormat2dp c1Row.hours := by
  decide

/-! ## C5 -/

unseal Rat.add Rat.sub Rat.mul Rat.inv Rat.ofScientific in
/-- C5: the claim fails on the code.  For a dataset missing the `Craft`
column the shell does report the missing columns, but it leaves `df` bound
to the incomplete frame, so as soon as the user enters a date the core
`build_report` IS invoked on that dataset (and dies with a `KeyError`,
modelled as `some none`).  Only when the user enters no date (the default
is empty because no date list was built) does the core stay uninvoked. -/
theorem C5_core_invoked_despite_schema_error :
    (appRun c5Frame (some "03/15/2023")).missing = ["Craft"]
  ∧ (appRun c5Frame (some "03/15/2023")).errorShown = true
  ∧ (appRun c5Frame (some "03/15/2023")).invoked = true
  ∧ (appRun c5Frame (some "03/15/2023")).result = some none
  ∧ (appRun c5Frame none).invoked = false := by
  decide

/-! ## C8 -/

unseal Rat.add Rat.sub Rat.mul Rat.inv in
/-- C8: a craft code whose trimmed string form is not a key of the static
table resolves to the sentinel `(Unmapped Craft)` (no exception — the
lookup is total), and such a record still aggregates, bucketed under the
sentinel description. -/
theorem C8_unmapped_craft_sentinel :
    (∀ v : CellValue, CRAFT_MAP.lookup (pyStrip (pyStr v)) = none →
        craftDescOf v = "(Unmapped Craft)")
  ∧ build_report c8Frame "03/15/2023" =
      some [(vStr "(Unmapped Craft)",
             [{ name := vStr "B", wo := vStr "77", hours := some 2,
                typ := "", descr := "", prob := "" }])] := by
  constructor
  · intro v h
    unfold craftDescOf
    rw [h]
    rfl
  · decide

/-- Witness for C8: the lookup-miss hypothesis is discharged at the
concrete code `9999999`. -/
theorem C8_unmapped_craft_sentinel_w :
    craftDescOf (vStr "9999999") = "(Unmapped Craft)" :=
  C8_unmapped_craft_sentinel.1 (vStr "9999999") (by decide)

/-! ## C2 -/

/-- Destructuring a successful `build_report`: the result is the sorted
partition of some group list. -/
lemma build_report_shape {f : Frame} {sel : String} {m : ReportModel}
    (h : build_report f sel = some m) :
    ∃ gs, m = sortCrafts (partitionCrafts gs) := by
  unfold build_report at h
  split at h
  · exact absurd h (by simp)
  split at h
  · exact absurd h (by simp)
  split at h
  · exact absurd h (by simp)
  exact ⟨_, (Option.some.inj h).symm⟩

/-- Inserting a row into a list keeps the subsequence of infinite-key
(non-numeric order number) rows: the new row goes in front of it when its
own key is infinite, because `orderedInsert` only skips rows it is not
`≤`-related to, and every key is `≤` an infinite key. -/
lemma filter_inf_orderedInsert (x : ORow) (l : List ORow) :
    (l.orderedInsert rowLe x).filter (fun r => decide (woKeyR r = none)) =
      if woKeyR x = none then
        x :: l.filter (fun r => decide (woKeyR r = none))
      else l.filter (fun r => decide (woKeyR r = none)) := by
  induction l with
  | nil =>
    by_cases hx : woKeyR x = none
    · simp [hx]
    · simp [hx]
  | cons b t ih =>
    simp only [List.orderedInsert]
    by_cases hle : rowLe x b
    · rw [if_pos hle]
      by_cases hx : woKeyR x = none
      · simp [List.filter_cons, hx]
      · simp [List.filter_cons, hx]
    · rw [if_neg hle]
      have hbnone : ¬ woKeyR b = none := by
        intro hb
        apply hle
        unfold rowLe
        rw [hb]
        cases woKeyR x <;> rfl
      by_cases hx : woKeyR x = none <;>
        simp [List.filter_cons, hbnone, hx, ih]

/-- The insertion sort used for the craft partitions is stable on the
infinite-key rows: their relative order is exactly their order in the
unsorted list. -/
lemma filter_inf_insertionSort (l : List ORow) :
    (l.insertionSort rowLe).filter (fun r => decide (woKeyR r = none)) =
      l.filter (fun r => decide (woKeyR r = none)) := by
  induction l with
  | nil => rfl
  | cons x t ih =>
    simp only [List.insertionSort]
    rw [filter_inf_orderedInsert]
    by_cases hx : woKeyR x = none
    · rw [if_pos hx]
      simp [List.filter_cons, hx, ih]
    · rw [if_neg hx]
      simp [List.filter_cons, hx, ih]

unseal Rat.add Rat.sub Rat.mul Rat.inv Rat.ofScientific in
/-- C2: within each craft partition of a built report the rows are sorted
ascending by the order-number key (numeric — pure digit string — keys
first in numeric order, all non-numeric keys after them); the sort is
stable on the non-numeric rows (their original insertion order survives
filtering); and the concrete order-number set
`{"100", "20", "abc", "7"}` comes out as `7`, `20`, `100`, `abc`. -/
theorem C2_partition_sorted_by_wo_key :
    (∀ (f : Frame) (sel : String) (m : ReportModel) (c : CellValue) (rs : List ORow),
        build_report f sel = some m → (c, rs) ∈ m → rs.Pairwise rowLe)
  ∧ (∀ l : List ORow,
        (l.insertionSort rowLe).filter (fun r => decide (woKeyR r = none)) =
          l.filter (fun r => decide (woKeyR r = none)))
  ∧ build_report c2Frame "03/15/2023" = some c2Model := by
  refine ⟨?_, filter_inf_insertionSort, by decide⟩
  intro f sel m c rs hm hmem
  obtain ⟨gs, rfl⟩ := build_report_shape hm
  unfold sortCrafts at hmem
  obtain ⟨⟨c0, rs0⟩, _, heq⟩ := List.mem_map.mp hmem
  cases heq
  exact List.sorted_insertionSort rowLe rs0

/-- Witness for C2: the sortedness conjunct applied to the concrete
`c2Frame` report. -/
theorem C2_partition_sorted_by_wo_key_w :
    List.Pairwise rowLe [c2Row "7", c2Row "20", c2Row "100", c2Row "abc"] :=
  C2_partition_sorted_by_wo_key.1 c2Frame "03/15/2023" c2Model
    (vStr "Alloy Mech Days") _
    C2_partition_sorted_by_wo_key.2.2 (by decide)

/-! ## C4 -/

/-- The frame `addCraftDesc` produces on a frame with a `Craft` column. -/
lemma addCraftDesc_eq {f : Frame} (h : "Craft" ∈ f.cols) :
    addCraftDesc f =
      some { cols := addCol f.cols "__CraftDesc",
             rows := f.rows.map (fun r =>
               setCell r "__CraftDesc" (vStr (craftDescOf ((lookupCell r "Craft").getD vNaN)))) } := by
  unfold addCraftDesc
  rw [if_pos h]

lemma mem_addCol_self (cols : List String) (c : String) : c ∈ addCol cols c := by
  unfold addCol
  split
  · assumption
  · simp

lemma mem_addCol_of_mem {cols : List String} {c : String} (c2 : String) (h : c ∈ cols) :
    c ∈ addCol cols c2 := by
  unfold addCol
  split <;> simp [h]

lemma runRowsAux_total (cols : List String) (h1 : "__CraftDesc" ∈ cols)
    (h2 : "Name" ∈ cols) (h3 : "OrderNumber" ∈ cols) :
    ∀ (rows : List DRow) (gs : List (GKey × Bucket)),
      ∃ out, runRowsAux cols rows gs = some out := by
  intro rows
  induction rows with
  | nil => exact fun gs => ⟨gs, rfl⟩
  | cons r rest ih =>
    intro gs
    simp only [runRowsAux, rowGet, if_pos h1, if_pos h2, if_pos h3, Option.some_bind]
    exact ih _

/-- C4: for every frame carrying the full record schema (all expected
columns present) and every target date string, `build_report` runs to
completion and returns a report — per-record date-parse failures only
exclude the record and numeric-parse failures only contribute `0.0`, so no
exception escapes the aggregation. -/
theorem C4_build_report_never_raises (f : Frame) (sel : String)
    (h : ∀ c ∈ EXPECTED_COLS, c ∈ f.cols) :
    ∃ m, build_report f sel = some m := by
  have hpd : "Production Date" ∈ f.cols := h _ (by decide)
  have hcr : "Craft" ∈ f.cols := h _ (by decide)
  have hnm : "Name" ∈ f.cols := h _ (by decide)
  have hwo : "OrderNumber" ∈ f.cols := h _ (by decide)
  have h1 : addProdDate f =
      some { cols := addCol f.cols "__ProdDate",
             rows := f.rows.map (fun r => setCell r "__ProdDate" (prodDateCell r)) } := by
    unfold addProdDate
    rw [if_pos hpd]
  unfold build_report
  rw [h1]
  dsimp only
  rw [addCraftDesc_eq (mem_addCol_of_mem _ hcr)]
  dsimp only [filterDate]
  obtain ⟨out, hout⟩ :=
    runRowsAux_total (addCol (addCol f.cols "__ProdDate") "__CraftDesc")
      (mem_addCol_self _ _)
      (mem_addCol_of_mem _ (mem_addCol_of_mem _ hnm))
      (mem_addCol_of_mem _ (mem_addCol_of_mem _ hwo))
      (((f.rows.map (fun r => setCell r "__ProdDate" (prodDateCell r))).filter
          (fun r => pyEqB ((lookupCell r "__ProdDate").getD vNaN) (vStr sel))).map
        (fun r => setCell r "__CraftDesc" (vStr (craftDescOf ((lookupCell r "Craft").getD vNaN)))))
      []
  rw [hout]
  exact ⟨_, rfl⟩

/-- Witness for C4: the schema hypothesis is discharged at the concrete
`c1Frame` with an arbitrary date. -/
theorem C4_build_report_never_raises_w :
    ∃ m, build_report c1Frame "07/04/2021" = some m :=
  C4_build_report_never_raises c1Frame "07/04/2021" (by decide)

/-! ## C10 -/

lemma get?_append_lt {α : Type} (l₁ l₂ : List α) (j : ℕ) (h : j < l₁.length) :
    (l₁ ++ l₂).get? j = l₁.get? j := by
  induction l₁ generalizing j with
  | nil => exact absurd h (Nat.not_lt_zero j)
  | cons a t ih =>
    cases j with
    | zero => rfl
    | succ j2 => exact ih j2 (Nat.lt_of_succ_lt_succ h)

/-- C10: `build_report` never changes the caller's frame.  In the store
model, every store slot below the original store length — in particular
the caller's frame at index `i` — is untouched by the call (`df.copy()`
allocates fresh slots and all helper-column writes land there), and the
result is a function of the original frame alone. -/
theorem C10_input_frame_unchanged (σ : List Frame) (i j : ℕ) (sel : String)
    (hj : j < σ.length) :
    (buildReportStore σ i sel).1.get? j = σ.get? j
  ∧ (buildReportStore σ i sel).2 = (σ.get? i).bind (fun f => build_report f sel) := by
  unfold buildReportStore
  cases hi : σ.get? i with
  | none => exact ⟨rfl, rfl⟩
  | some f =>
    dsimp only
    have hb : (some f).bind (fun f => build_report f sel) = build_report f sel := rfl
    rw [hb]
    unfold build_report
    cases h1 : addProdDate f with
    | none => exact ⟨get?_append_lt σ _ j hj, rfl⟩
    | some f1 =>
      dsimp only
      cases h3 : addCraftDesc (filterDate f1 sel) with
      | none => exact ⟨get?_append_lt σ _ j hj, rfl⟩
      | some f3 =>
        dsimp only
        cases hg : runRowsAux f3.cols f3.rows [] with
        | none => exact ⟨get?_append_lt σ _ j hj, rfl⟩
        | some gs => exact ⟨get?_append_lt σ _ j hj, rfl⟩

unseal Rat.add Rat.sub Rat.mul Rat.inv Rat.ofScientific in
/-- Witness for C10: the index bound is discharged on a one-frame store. -/
theorem C10_input_frame_unchanged_w :
    (buildReportStore [c1Frame] 0 "03/15/2023").1.get? 0 = ([c1Frame] : List Frame).get? 0
  ∧ (buildReportStore [c1Frame] 0 "03/15/2023").2 =
      (([c1Frame] : List Frame).get? 0).bind (fun f => build_report f "03/15/2023") :=
  C10_input_frame_unchanged [c1Frame] 0 0 "03/15/2023" (by decide)

/-! ## C6 -/

/-- A nonempty all-digit list has a digit member. -/
lemma exists_digit_of_all {ip : List Char} (hne : ip ≠ [])
    (hall : ip.all Char.isDigit = true) : ∃ c ∈ ip, c.isDigit = true := by
  obtain ⟨c, hc⟩ := List.exists_mem_of_ne_nil ip hne
  exact ⟨c, hc, by simpa using (List.all_eq_true.mp hall c hc)⟩

/-- A string of characters that `float()` accepts contains a digit. -/
lemma exists_digit_of_parseUnsigned {cs : List Char} {q : ℚ}
    (h : parseUnsignedChars cs = some q) : ∃ c ∈ cs, c.isDigit = true := by
  unfold parseUnsignedChars at h
  split at h
  next ip heq =>
    split_ifs at h with hc
    obtain ⟨c, hc1, hc2⟩ := exists_digit_of_all hc.1 hc.2
    exact ⟨c, (List.takeWhile_sublist _).subset hc1, hc2⟩
  next y fp ip heq =>
    split_ifs at h with hc
    obtain ⟨hip, hfp, hor⟩ := hc
    rcases hor with hne | hne
    · obtain ⟨c, hc1, hc2⟩ := exists_digit_of_all hne hip
      exact ⟨c, (List.takeWhile_sublist _).subset hc1, hc2⟩
    · obtain ⟨c, hc1, hc2⟩ := exists_digit_of_all hne hfp
      have hmem : c ∈ cs.dropWhile (fun c => c ≠ '.') := by
        rw [heq]
        exact List.mem_cons_of_mem _ hc1
      exact ⟨c, (List.dropWhile_sublist _).subset hmem, hc2⟩

/-- `float()` (restricted to the stripped alphabet) succeeds only on
strings containing a digit. -/
lemma exists_digit_of_parseFloat {cs : List Char} {q : ℚ}
    (h : parseFloatChars cs = some q) : ∃ c ∈ cs, c.isDigit = true := by
  unfold parseFloatChars at h
  split at h
  next rest =>
    rw [Option.map_eq_some'] at h
    obtain ⟨q0, hq0, _⟩ := h
    obtain ⟨c, hc1, hc2⟩ := exists_digit_of_parseUnsigned hq0
    exact ⟨c, List.mem_cons_of_mem _ hc1, hc2⟩
  next ncs hne =>
    exact exists_digit_of_parseUnsigned h

/-- C6: `numberish` is total — numbers pass through as floats, every other
type of value yields `0.0` — and every string containing no digit yields
exactly `0.0` (the stripped characters fail to parse and the failure is
absorbed to `0.0`). -/
theorem C6_numberish_total_default_zero :
    (∀ n : ℤ, numberish (vInt n) = some (n : ℚ))
  ∧ (∀ q : ℚ, numberish (vFloat q) = some q)
  ∧ numberish vNone = some 0
  ∧ (∀ y m d, numberish (vDate y m d) = some 0)
  ∧ (∀ s : String, (∀ c ∈ s.data, c.isDigit = false) →
        numberish (vStr s) = some 0) := by
  refine ⟨fun n => rfl, fun q => rfl, rfl, fun y m d => rfl, fun s hs => ?_⟩
  show some ((parseFloatChars (s.data.filter keepNumChar)).getD 0) = some 0
  cases hp : parseFloatChars (s.data.filter keepNumChar) with
  | none => rfl
  | some q =>
    obtain ⟨c, hc1, hc2⟩ := exists_digit_of_parseFloat hp
    rw [hs c (List.mem_of_mem_filter hc1)] at hc2
    exact absurd hc2 Bool.false_ne_true

/-- Witness for C6: the no-digit hypothesis is discharged at the concrete
strings `"h-."` and `"NaN"`. -/
theorem C6_numberish_total_default_zero_w :
    numberish (vStr "h-.") = some 0 ∧ numberish (vStr "NaN") = some 0 :=
  ⟨C6_numberish_total_default_zero.2.2.2.2 "h-." (by decide),
   C6_numberish_total_default_zero.2.2.2.2 "NaN" (by decide)⟩

/-! ## C7 -/

/-- The serial day-count conversion succeeds exactly on the pandas
`Timestamp` range; inside it, the date is the day count from the
1899-12-30 epoch (day `-25569` of the Unix epoch). -/
lemma toDatetimeDay_int_of_bounds {n : ℤ} (h1 : -81182 ≤ n) (h2 : n ≤ 132320) :
    toDatetimeDay (n : ℚ) = some (civilFromDays (n - 25569)) := by
  have hcast : ((n : ℚ) - 25569) * 86400000000000 =
      (((n - 25569) * 86400000000000 : ℤ) : ℚ) := by
    push_cast
    ring
  have pa : (-(2 ^ 63) : ℚ) ≤ ((n : ℚ) - 25569) * 86400000000000 := by
    rw [hcast]
    have : (-(9223372036854775808 : ℤ)) ≤ (n - 25569) * 86400000000000 := by omega
    exact_mod_cast this
  have pb : ((n : ℚ) - 25569) * 86400000000000 ≤ (2 ^ 63 : ℚ) - 1 := by
    rw [hcast]
    have : (n - 25569) * 86400000000000 ≤ (9223372036854775807 : ℤ) := by omega
    exact_mod_cast this
  have hfl : ⌊(n : ℚ) - 25569⌋ = n - 25569 := by
    have : ((n : ℚ) - 25569) = ((n - 25569 : ℤ) : ℚ) := by
      push_cast
      ring
    rw [this, Int.floor_intCast]
  unfold toDatetimeDay inInt64
  rw [decide_eq_true pa, decide_eq_true pb, hfl]
  rfl

/-- C7: `normalize_excel_date` returns no date for `None`, NaN and the
empty string; a numeric value is first interpreted as a whole-day count
from the 1899-12-30 epoch, on failure as a millisecond Unix timestamp, and
when both fail falls through to free-form text parsing of `str(v)` (so it
is `none` only when that also fails); in the day-count range the result is
exactly the day-count date. -/
theorem C7_normalize_priority :
    normalize_excel_date vNone = none
  ∧ normalize_excel_date vNaN = none
  ∧ normalize_excel_date (vStr "") = none
  ∧ (∀ n : ℤ, normalize_excel_date (vInt n) =
      (((toDatetimeDay (n : ℚ)).map fmtDate).orElse (fun _ =>
        (((toDatetimeMs (n : ℚ)).map fmtDate).orElse (fun _ =>
          (pdParseText (toString n)).map fmtDate)))))
  ∧ (∀ q : ℚ, normalize_excel_date (vFloat q) =
      (((toDatetimeDay q).map fmtDate).orElse (fun _ =>
        (((toDatetimeMs q).map fmtDate).orElse (fun _ =>
          (pdParseText (pyStrFloat q)).map fmtDate)))))
  ∧ (∀ n : ℤ, -81182 ≤ n → n ≤ 132320 →
      normalize_excel_date (vInt n) = some (fmtDate (civilFromDays (n - 25569)))) := by
  refine ⟨rfl, rfl, by decide, fun n => ?_, fun q => ?_, fun n h1 h2 => ?_⟩
  · show numericNorm (n : ℚ) (toString n) = _
    unfold numericNorm
    cases hd : toDatetimeDay (n : ℚ) <;> cases hm : toDatetimeMs (n : ℚ) <;>
      simp [Option.orElse]
  · show numericNorm q (pyStrFloat q) = _
    unfold numericNorm
    cases hd : toDatetimeDay q <;> cases hm : toDatetimeMs q <;>
      simp [Option.orElse]
  · show numericNorm (n : ℚ) (toString n) = _
    unfold numericNorm
    rw [toDatetimeDay_int_of_bounds h1 h2]

/-- Witness for C7: the bounds hypotheses of the day-count branch are
discharged at the Excel serial 45000, whose canonical date is
`03/15/2023`. -/
theorem C7_normalize_priority_w :
    normalize_excel_date (vInt 45000) = some "03/15/2023" := by
  have h := C7_normalize_priority.2.2.2.2.2 45000 (by decide) (by decide)
  rw [h]
  decide

/-! ## C9 -/

/-- Python `==` on cell values is symmetric. -/
lemma pyEqB_symm (a b : CellValue) : pyEqB a b = pyEqB b a := by
  cases a <;> cases b <;> simp [pyEqB, decide_eq_decide, eq_comm]

/-- Python `==` on grouping keys is symmetric. -/
lemma keyEqB_symm (a b : GKey) : keyEqB a b = keyEqB b a := by
  unfold keyEqB
  rw [pyEqB_symm a.1, pyEqB_symm a.2.1, pyEqB_symm a.2.2]

lemma keys_stepGroups_sub :
    ∀ (gs : List (GKey × Bucket)) (k : GKey) (h t d p : CellValue) (x : GKey),
      x ∈ (stepGroups gs k h t d p).map Prod.fst → x ∈ gs.map Prod.fst ∨ x = k := by
  intro gs
  induction gs with
  | nil =>
    intro k h t d p x hx
    simp [stepGroups] at hx
    right
    exact hx
  | cons kb rest ih =>
    intro k h t d p x hx
    unfold stepGroups at hx
    by_cases hk : keyEqB k kb.1 = true
    · rw [if_pos hk] at hx
      simp only [List.map_cons, List.mem_cons] at hx
      rcases hx with hx | hx
      · left; simp [hx]
      · left; simp [hx]
    · rw [if_neg hk] at hx
      simp only [List.map_cons, List.mem_cons] at hx
      rcases hx with hx | hx
      · left; simp [hx]
      · rcases ih k h t d p x hx with hin | hek
        · left; simp [hin]
        · right; exact hek

lemma keysDistinct_stepGroups {gs : List (GKey × Bucket)} (k : GKey)
    (h t d p : CellValue) (hd : KeysDistinct gs) :
    KeysDistinct (stepGroups gs k h t d p) := by
  induction gs with
  | nil => simp [stepGroups, KeysDistinct]
  | cons kb rest ih =>
    unfold KeysDistinct at hd ⊢
    simp only [List.map_cons, List.pairwise_cons] at hd
    obtain ⟨hhead, htail⟩ := hd
    unfold stepGroups
    by_cases hk : keyEqB k kb.1 = true
    · rw [if_pos hk]
      simp only [List.map_cons, List.pairwise_cons]
      exact ⟨hhead, htail⟩
    · rw [if_neg hk]
      simp only [List.map_cons, List.pairwise_cons]
      constructor
      · intro x hx
        rcases keys_stepGroups_sub rest k h t d p x hx with hin | rfl
        · exact hhead x hin
        · rw [keyEqB_symm]
          exact Bool.eq_false_iff.mpr hk
      · exact ih htail

lemma bucketsMatch_stepGroups {gs : List (GKey × Bucket)} (k : GKey)
    (h t d p : CellValue) (hb : BucketsMatchKeys gs) :
    BucketsMatchKeys (stepGroups gs k h t d p) := by
  induction gs with
  | nil =>
    intro kb hkb
    simp [stepGroups] at hkb
    subst hkb
    exact ⟨rfl, rfl, rfl⟩
  | cons kb0 rest ih =>
    intro kb hkb
    unfold stepGroups at hkb
    by_cases hk : keyEqB k kb0.1 = true
    · rw [if_pos hk] at hkb
      rcases List.mem_cons.mp hkb with rfl | hkb
      · exact hb kb0 (List.mem_cons_self _ _)
      · exact hb kb (List.mem_cons_of_mem _ hkb)
    · rw [if_neg hk] at hkb
      rcases List.mem_cons.mp hkb with rfl | hkb
      · exact hb kb0 (List.mem_cons_self _ _)
      · exact ih (fun x hx => hb x (List.mem_cons_of_mem _ hx)) kb hkb

lemma keysStr_stepGroups {gs : List (GKey × Bucket)} {k : GKey}
    (h t d p : CellValue) (hs : KeysStrHeaded gs) (hk : ∃ s, k.1 = vStr s) :
    KeysStrHeaded (stepGroups gs k h t d p) := by
  induction gs with
  | nil =>
    intro kb hkb
    simp [stepGroups] at hkb
    subst hkb
    exact hk
  | cons kb0 rest ih =>
    intro kb hkb
    unfold stepGroups at hkb
    by_cases hke : keyEqB k kb0.1 = true
    · rw [if_pos hke] at hkb
      rcases List.mem_cons.mp hkb with rfl | hkb
      · exact hs kb0 (List.mem_cons_self _ _)
      · exact hs kb (List.mem_cons_of_mem _ hkb)
    · rw [if_neg hke] at hkb
      rcases List.mem_cons.mp hkb with rfl | hkb
      · exact hs kb0 (List.mem_cons_self _ _)
      · exact ih (fun x hx => hs x (List.mem_cons_of_mem _ hx)) kb hkb

/-- The label just set is the label found (pandas column write/read). -/
lemma lookupCell_setCell_self (r : DRow) (c : String) (v : CellValue) :
    lookupCell (setCell r c v) c = some v := by
  induction r with
  | nil => simp [setCell, lookupCell, List.find?]
  | cons p rest ih =>
    unfold setCell
    by_cases hp : p.1 == c
    · rw [if_pos hp]
      simp only [lookupCell, List.find?, hp]
      rfl
    · rw [if_neg hp]
      simp only [lookupCell, List.find?] at ih ⊢
      rw [Bool.of_not_eq_true hp]
      exact ih

/-- The grouping loop keeps all three dictionary invariants, provided every
processed row carries a string craft description. -/
lemma runRowsAux_invariants (cols : List String) :
    ∀ (rows : List DRow) (gs out : List (GKey × Bucket)),
      runRowsAux cols rows gs = some out →
      (∀ r ∈ rows, ∃ s, rowGet cols r "__CraftDesc" = some (vStr s)) →
      KeysDistinct gs → BucketsMatchKeys gs → KeysStrHeaded gs →
      KeysDistinct out ∧ BucketsMatchKeys out ∧ KeysStrHeaded out := by
  intro rows
  induction rows with
  | nil =>
    intro gs out h _ h1 h2 h3
    have hg : gs = out := Option.some.inj h
    subst hg
    exact ⟨h1, h2, h3⟩
  | cons r rest ih =>
    intro gs out h hcr h1 h2 h3
    unfold runRowsAux at h
    cases hcd : rowGet cols r "__CraftDesc" with
    | none =>
      rw [hcd] at h
      exact Option.noConfusion h
    | some ck =>
      cases hnm : rowGet cols r "Name" with
      | none =>
        rw [hcd, hnm] at h
        exact Option.noConfusion h
      | some nm =>
        cases hwo : rowGet cols r "OrderNumber" with
        | none =>
          rw [hcd, hnm, hwo] at h
          exact Option.noConfusion h
        | some wo =>
          rw [hcd, hnm, hwo] at h
          obtain ⟨s, hs⟩ := hcr r (List.mem_cons_self _ _)
          have hck : ck = vStr s := Option.some.inj (hcd ▸ hs)
          exact ih _ _ h (fun x hx => hcr x (List.mem_cons_of_mem _ hx))
            (keysDistinct_stepGroups _ _ _ _ _ h1)
            (bucketsMatch_stepGroups _ _ _ _ _ h2)
            (keysStr_stepGroups _ _ _ _ h3 ⟨s, hck⟩)

lemma pyEqB_vStr {a b : String} (h : pyEqB (vStr a) (vStr b) = true) : a = b := by
  simpa [pyEqB] using h

lemma strKeyed_addToCraft {m : ReportModel} {c : CellValue} (row : ORow)
    (hm : StrKeyed m) (hc : ∃ s, c = vStr s) : StrKeyed (addToCraft m c row) := by
  induction m with
  | nil =>
    intro p hp
    simp [addToCraft] at hp
    subst hp
    exact hc
  | cons p0 rest ih =>
    intro p hp
    unfold addToCraft at hp
    by_cases he : pyEqB p0.1 c = true
    · rw [if_pos he] at hp
      rcases List.mem_cons.mp hp with rfl | hp
      · exact hm p0 (List.mem_cons_self _ _)
      · exact hm p (List.mem_cons_of_mem _ hp)
    · rw [if_neg he] at hp
      rcases List.mem_cons.mp hp with rfl | hp
      · exact hm p0 (List.mem_cons_self _ _)
      · exact ih (fun x hx => hm x (List.mem_cons_of_mem _ hx)) p hp

/-- Appending a row to its craft partition appends its triple, up to
permutation of the whole triple list. -/
lemma triples_addToCraft {m : ReportModel} {c : CellValue} (row : ORow)
    (hm : StrKeyed m) (hc : ∃ s, c = vStr s) :
    List.Perm (modelTriples (addToCraft m c row))
      ((c, row.name, row.wo) :: modelTriples m) := by
  induction m with
  | nil => simp [addToCraft, modelTriples]
  | cons p0 rest ih =>
    obtain ⟨pc, prs⟩ := p0
    unfold addToCraft
    by_cases he : pyEqB pc c = true
    · rw [if_pos he]
      obtain ⟨s, rfl⟩ := hc
      obtain ⟨s0, h0⟩ := hm (pc, prs) (List.mem_cons_self _ _)
      have h0x : pc = vStr s0 := h0
      have hpc : pc = vStr s := by
        rw [h0x] at he ⊢
        rw [pyEqB_vStr he]
      subst hpc
      show List.Perm (modelTriples ((vStr s, prs ++ [row]) :: rest)) _
      unfold modelTriples
      rw [List.map_append, List.append_assoc]
      exact List.perm_middle
    · rw [if_neg he]
      show List.Perm (modelTriples ((pc, prs) :: addToCraft rest c row)) _
      unfold modelTriples
      have hrec := ih (fun x hx => hm x (List.mem_cons_of_mem _ hx))
      exact (List.Perm.append_left _ hrec).trans List.perm_middle

/-- Distributing buckets into craft partitions preserves the triples as a
multiset: the triples of the final report are the buckets' triples. -/
lemma triples_partition_fold :
    ∀ (gs : List (GKey × Bucket)) (m0 : ReportModel),
      StrKeyed m0 → (∀ kb ∈ gs, ∃ s, kb.2.craft = vStr s) →
      List.Perm
        (modelTriples (gs.foldl (fun m kb => addToCraft m kb.2.craft (mkORow kb.2)) m0))
        (modelTriples m0 ++ gs.map (fun kb => (kb.2.craft, kb.2.name, kb.2.wo))) := by
  intro gs
  induction gs with
  | nil =>
    intro m0 _ _
    simp
  | cons kb rest ih =>
    intro m0 hm0 hstr
    have hkb : ∃ s, kb.2.craft = vStr s := hstr kb (List.mem_cons_self _ _)
    have hstep := triples_addToCraft (mkORow kb.2) hm0 hkb
    have hkeyed := strKeyed_addToCraft (m := m0) (mkORow kb.2) hm0 hkb
    have hrec := ih (addToCraft m0 kb.2.craft (mkORow kb.2)) hkeyed
      (fun x hx => hstr x (List.mem_cons_of_mem _ hx))
    simp only [List.foldl_cons]
    refine hrec.trans ?_
    simp only [List.map_cons]
    refine (hstep.append_right _).trans ?_
    show List.Perm (((kb.2.craft, (mkORow kb.2).name, (mkORow kb.2).wo) :: modelTriples m0) ++ _) _
    have hname : (mkORow kb.2).name = kb.2.name := rfl
    have hwo : (mkORow kb.2).wo = kb.2.wo := rfl
    rw [hname, hwo]
    exact List.perm_middle.symm

/-- Sorting each partition permutes the triples within the partition. -/
lemma triples_sortCrafts (m : ReportModel) :
    List.Perm (modelTriples (sortCrafts m)) (modelTriples m) := by
  induction m with
  | nil => exact List.Perm.refl _
  | cons p rest ih =>
    obtain ⟨c, rs⟩ := p
    show List.Perm (modelTriples ((c, rs.insertionSort rowLe) :: sortCrafts rest)) _
    unfold modelTriples
    exact ((List.perm_insertionSort rowLe rs).map _).append ih

/-- The craft-description cells written by `addCraftDesc` read back as
strings. -/
lemma rowsCraftStr_addCraftDesc {f f3 : Frame} (h : addCraftDesc f = some f3) :
    ∀ r ∈ f3.rows, ∃ s, rowGet f3.cols r "__CraftDesc" = some (vStr s) := by
  unfold addCraftDesc at h
  split_ifs at h with hc
  obtain rfl := Option.some.inj h
  intro r hr
  obtain ⟨r0, _, rfl⟩ := List.mem_map.mp hr
  refine ⟨craftDescOf ((lookupCell r0 "Craft").getD vNaN), ?_⟩
  show rowGet (addCol f.cols "__CraftDesc") _ _ = _
  rw [rowGet, if_pos (mem_addCol_self _ _), lookupCell_setCell_self]
  rfl

/-- C9: in every successfully built report, the `(craft description, Name,
OrderNumber)` triples of the rows are pairwise distinct under Python
equality, and as a multiset they are exactly the group keys of the buckets
that produced them (each row's triple equals its bucket's `GroupKey`). -/
theorem C9_triples_unique_and_equal_groupkeys (f : Frame) (sel : String)
    (m : ReportModel) (gs : List (GKey × Bucket))
    (hm : build_report f sel = some m) (hg : groupsOf f sel = some gs) :
    (modelTriples m).Pairwise (fun a b => keyEqB a b = false)
  ∧ List.Perm (modelTriples m) (gs.map Prod.fst) := by
  unfold groupsOf at hg
  unfold build_report at hm
  cases h1 : addProdDate f with
  | none =>
    rw [h1] at hg
    exact Option.noConfusion hg
  | some f1 =>
    rw [h1] at hm hg
    dsimp only at hm hg
    cases h3 : addCraftDesc (filterDate f1 sel) with
    | none =>
      rw [h3] at hg
      exact Option.noConfusion hg
    | some f3 =>
      rw [h3] at hm hg
      dsimp only at hm hg
      cases hrun : runRowsAux f3.cols f3.rows [] with
      | none =>
        rw [hrun] at hg
        exact Option.noConfusion hg
      | some gs0 =>
        rw [hrun] at hm hg
        dsimp only at hm
        obtain rfl : gs0 = gs := Option.some.inj hg
        obtain rfl : m = sortCrafts (partitionCrafts gs0) := (Option.some.inj hm).symm
        obtain ⟨hdist, hmatch, hstrk⟩ :=
          runRowsAux_invariants f3.cols f3.rows [] gs0 hrun
            (rowsCraftStr_addCraftDesc h3)
            List.Pairwise.nil
            (fun kb hkb => absurd hkb (List.not_mem_nil kb))
            (fun kb hkb => absurd hkb (List.not_mem_nil kb))
        have hcraftstr : ∀ kb ∈ gs0, ∃ s, kb.2.craft = vStr s := by
          intro kb hkb
          obtain ⟨s, hs⟩ := hstrk kb hkb
          exact ⟨s, by rw [(hmatch kb hkb).1, hs]⟩
        have hmapeq :
            gs0.map (fun kb => (kb.2.craft, kb.2.name, kb.2.wo)) = gs0.map Prod.fst := by
          apply List.map_congr_left
          intro kb hkb
          obtain ⟨hc, hn, hw⟩ := hmatch kb hkb
          rw [hc, hn, hw]
        have hperm : List.Perm (modelTriples (sortCrafts (partitionCrafts gs0)))
            (gs0.map Prod.fst) := by
          refine (triples_sortCrafts _).trans ?_
          have hfold := triples_partition_fold gs0 []
            (fun p hp => absurd hp (List.not_mem_nil p)) hcraftstr
          rw [hmapeq] at hfold
          exact hfold
        refine ⟨?_, hperm⟩
        have hsymm : ∀ {a b : GKey}, keyEqB a b = false → keyEqB b a = false :=
          fun hab => by rw [keyEqB_symm]; exact hab
        exact (hperm.pairwise_iff (fun hab => hsymm hab)).mpr hdist

unseal Rat.add Rat.sub Rat.mul Rat.inv Rat.ofScientific in
/-- Witness for C9: both pipeline hypotheses are discharged on the
concrete `c1Frame` report. -/
theorem C9_triples_unique_and_equal_groupkeys_w :
    (modelTriples c1Model).Pairwise (fun a b => keyEqB a b = false)
  ∧ List.Perm (modelTriples c1Model) (c1Groups.map Prod.fst) :=
  C9_triples_unique_and_equal_groupkeys c1Frame "03/15/2023" c1Model c1Groups
    (by decide) (by decide)
